import Mathlib

/-!
Shallow embedding of `src/index.js` of socket-loader: a fluent facade
(`Loader`) that scans directories for handler modules, loads them,
normalizes their exports (plain function vs. class with a `connection`
method) and registers a connection-event listener that fans the event out
to every collected handler with `(server, socket, ...extraArguments)`.

Modelling conventions:
- Logging is an external effect: operations return the list of entries the
  logger received (empty when `verbose` is off) alongside their result.
- Thrown JS exceptions are `Except.error` with the exception message.
- Filesystem and module loading are collaborator functions passed in.
- JS export values are the inductive `Value`: plain functions, class-shaped
  constructors (with or without a `connection` method on their instances),
  bound `connection` methods of created instances, and non-functions.
- Instance state is a store `Nat → Nat` (instance id to state); invoking a
  bound `connection` method records the state it observed and advances the
  instance's state by a caller-chosen transition `step`, which suffices to
  express single-instance state persistence across connection events.
-/

namespace SocketLoader

inductive LogLevel where
  | info
  | warn
  | error
  | log
deriving DecidableEq, Repr

structure LogEntry where
  level : LogLevel
  message : String
deriving DecidableEq, Repr

/-- The merged options record (`this.options` after the constructor). -/
structure Options where
  cwd : String
  verbose : Bool
  extensions : List String
  withNamespace : Bool
deriving DecidableEq, Repr

/-- Constructor-time overlay: fields the caller may supply. -/
structure OptionsOverlay where
  cwd : Option String
  verbose : Option Bool
  extensions : Option (List String)
  withNamespace : Option Bool
deriving DecidableEq, Repr

/-- Facade state: `this.options`, `this.extraArguments`, `this.files`. -/
structure Loader where
  options : Options
  extraArguments : List Nat
  files : List String
deriving DecidableEq, Repr

/-- Models `new Loader(options)`: options spread over defaults, empty lists. -/
def Loader.construct (processCwd : String) (o : OptionsOverlay) : Loader :=
  { options :=
      { cwd := o.cwd.getD processCwd
        verbose := o.verbose.getD false
        extensions := o.extensions.getD ["js", "mjs"]
        withNamespace := o.withNamespace.getD true }
    extraArguments := []
    files := [] }

/-- What the logger receives from one `this.log(message, type)` call. -/
def emit (o : Options) (message : String) (type : LogLevel) : List LogEntry :=
  if o.verbose then [{ level := type, message := message }] else []

/-- The `log` method of the facade (returns only the logger-visible effect). -/
def Loader.log (l : Loader) (message : String) (type : LogLevel) : List LogEntry :=
  emit l.options message type

def pathSep : String := "/"

/-- Models `path.join(a, b)` on the platform separator. -/
def pathJoin (a b : String) : String := a ++ pathSep ++ b

/-- Models `/[^.]+$/.exec(filename)`: the maximal trailing run of non-dot
characters, `none` when the match fails (empty name or name ending in
a dot), in which case the JS destructuring of `null` throws. -/
def extExec (filename : String) : Option String :=
  let ext := String.mk ((filename.toList.reverse.takeWhile (fun c => c ≠ '.')).reverse)
  if ext = "" then none else some ext

/-- Filesystem collaborator used by `when`. -/
structure FileSystem where
  existsSync : String → Bool
  isDirectory : String → Bool
  readdirSync : String → List String

/-- The `for (const filename of fs.readdirSync(location))` loop of `when`:
extension filter first, hidden-file filter second, then push of the joined
path; a failing extension match throws (destructuring of `null`). -/
def scanEntries (l : Loader) (location : String) :
    List String → Except String Loader × List LogEntry
  | [] => (.ok l, [])
  | filename :: rest =>
    match extExec filename with
    | none => (.error "TypeError: object null is not iterable", [])
    | some extension =>
      if l.options.extensions.contains extension = false then
        let (r, logs) := scanEntries l location rest
        (r, emit l.options ("Ignoring extension: " ++ extension) .info ++ logs)
      else if filename.startsWith "." then
        let (r, logs) := scanEntries l location rest
        (r, emit l.options ("Ignoring hidden entity: " ++ filename) .info ++ logs)
      else
        scanEntries { l with files := l.files ++ [pathJoin location filename] } location rest

/-- Models `when(dirname)`: resolve against `cwd`; soft-fail (log, return) when the
location is missing or not a directory; otherwise scan the entries. -/
def Loader.when (fsys : FileSystem) (l : Loader) (dirname : String) :
    Except String Loader × List LogEntry :=
  let location := pathJoin l.options.cwd dirname
  if fsys.existsSync location = false then
    (.ok l, l.log ("Entity not found " ++ location) .error)
  else if fsys.isDirectory location = false then
    (.ok l, l.log (location ++ " not is an folder") .error)
  else
    scanEntries l location (fsys.readdirSync location)

/-- Models `getRelativeTo(location)`, that is `'.' + location.split(cwd).pop()`. -/
def Loader.getRelativeTo (l : Loader) (location : String) : String :=
  "." ++ (location.splitOn l.options.cwd).getLastD ""

/-- Models `withExtraArgument(...extraArgument)`: concatenate onto the list. -/
def Loader.withExtraArgument (l : Loader) (extraArgument : List Nat) : Loader :=
  { l with extraArguments := l.extraArguments ++ extraArgument }

/-- A JS value that can appear among a module's exports or in `fns`. -/
inductive Value where
  /-- a plain function -/
  | fn (id : Nat)
  /-- a class-shaped constructor; `hasConnection` says whether its
  instances expose a `connection` method -/
  | cls (id : Nat) (hasConnection : Bool)
  /-- the value `instance.connection.bind(instance)` for instance `instanceId` -/
  | bound (instanceId : Nat)
  /-- a non-function export -/
  | other (id : Nat)
deriving DecidableEq, Repr

/-- Models `typeof v === 'function'` (classes and bound methods included). -/
def isFunction : Value → Bool
  | .other _ => false
  | _ => true

/-- The listener closure registered by `server.on('connection', ...)`:
it captures the `fns` array built by `into`. -/
structure Listener where
  fns : List Value
deriving DecidableEq, Repr

/-- The inner `for (const i of mod)` loop of `into`, iterating by index
over the live (mutated) `mod` array with `n` steps of fuel (the array's
length, which mutation by `set` preserves): non-functions throw; a
class-shaped export is instantiated (consuming one instance id), and its
bound `connection` method replaces it in `mod` at `mod.indexOf(i)` when
the instance has one, otherwise an error is logged and `mod` is left
unchanged; every iteration logs `loaded:` and appends the WHOLE current
`mod` to `fns` (`fns = fns.concat(mod)` sits inside the loop). -/
def loopExports (o : Options) (lastPart : String) :
    Nat → List Value → List Value → Nat → Nat →
      Except String (List Value × Nat) × List LogEntry
  | 0, _, fns, _, nextInstance => (.ok (fns, nextInstance), [])
  | n + 1, mod, fns, k, nextInstance =>
    match mod.get? k with
    | none => (.ok (fns, nextInstance), [])
    | some i =>
      if isFunction i = false then
        (.error "module requires an function", [])
      else
        match i with
        | Value.cls _ hasConn =>
          if hasConn then
            let mod' := mod.set (mod.indexOf i) (Value.bound nextInstance)
            let (r, logs) :=
              loopExports o lastPart n mod' (fns ++ mod') (k + 1) (nextInstance + 1)
            (r, emit o ("loaded: " ++ lastPart) .info ++ logs)
          else
            let (r, logs) :=
              loopExports o lastPart n mod (fns ++ mod) (k + 1) (nextInstance + 1)
            (r, emit o "cannot load route" .error ++
                emit o ("loaded: " ++ lastPart) .info ++ logs)
        | _ =>
          let (r, logs) := loopExports o lastPart n mod (fns ++ mod) (k + 1) nextInstance
          (r, emit o ("loaded: " ++ lastPart) .info ++ logs)

/-- The outer `for (const file of this.files)` loop of `into`: compute the
relative path parts, `require` the file (a failure throws an error naming
the file and the cause), then run the export loop, accumulating `fns` and
the instance counter. -/
def intoFiles (loadModule : String → Except String (List Value)) (l : Loader) :
    List String → List Value → Nat →
      Except String (List Value × Nat) × List LogEntry
  | [], fns, nextInstance => (.ok (fns, nextInstance), [])
  | file :: rest, fns, nextInstance =>
    let parts := ((l.getRelativeTo file).splitOn pathSep).drop 1
    match loadModule file with
    | .error e => (.error ("Failed to require " ++ file ++ " because: " ++ e), [])
    | .ok mod =>
      match loopExports l.options (parts.getLastD "undefined") mod.length mod fns 0
          nextInstance with
      | (.error m, logs) => (.error m, logs)
      | (.ok (fns', ni'), logs) =>
        let (r, logs') := intoFiles loadModule l rest fns' ni'
        (r, logs ++ logs')

/-- Models `into(server)`: build `fns` from all discovered files, then register one
connection listener capturing `fns`. Returns the registered listener and
the number of class instances created; a thrown error registers nothing. -/
def Loader.into (loadModule : String → Except String (List Value)) (l : Loader) :
    Except String (Listener × Nat) × List LogEntry :=
  match intoFiles loadModule l l.files [] 0 with
  | (.error m, logs) => (.error m, logs)
  | (.ok (fns, ni), logs) => (.ok ({ fns := fns }, ni), logs)

/-- An argument of one handler invocation: the server, the connection
socket, or one element of `this.extraArguments`. -/
inductive Arg where
  | server
  | socket (id : Nat)
  | extra (v : Nat)
deriving DecidableEq, Repr

/-- One observed handler invocation during dispatch. -/
structure Invocation where
  callee : Value
  observedState : Option Nat
  args : List Arg
deriving DecidableEq, Repr

/-- Models `fn(server, socket, ...extraArguments)` for one element of `fns`:
plain functions run; a bound `connection` method reads its instance's
state and advances it by `step`; calling a class constructor without
`new`, or a non-function, throws (and runs nothing). -/
def callValue (step : Nat → Nat) (store : Nat → Nat) (v : Value) (args : List Arg) :
    Except String ((Nat → Nat) × Invocation) :=
  match v with
  | Value.fn _ => .ok (store, { callee := v, observedState := none, args := args })
  | Value.bound j =>
    .ok (Function.update store j (step (store j)),
      { callee := v, observedState := some (store j), args := args })
  | Value.cls _ _ => .error "TypeError: class constructor cannot be invoked without new"
  | Value.other _ => .error "TypeError: fn is not a function"

/-- The `for (const fn of fns)` dispatch loop: invoke in order; a throw
propagates, skipping the rest (the trace holds only completed calls). -/
def dispatchList (step : Nat → Nat) (args : List Arg) :
    (Nat → Nat) → List Value → (Nat → Nat) × List Invocation × Option String
  | store, [] => (store, [], none)
  | store, v :: rest =>
    match callValue step store v args with
    | .error e => (store, [], some e)
    | .ok (store', inv) =>
      let (store'', invs, err) := dispatchList step args store' rest
      (store'', inv :: invs, err)

/-- One connection event on a server bound by `into`: the listener closure
runs every captured handler with `(server, socket, ...this.extraArguments)`,
reading `this.extraArguments` from the facade state `l` at event time. -/
def fire (step : Nat → Nat) (ln : Listener) (l : Loader) (sock : Nat)
    (store : Nat → Nat) : (Nat → Nat) × List Invocation × Option String :=
  dispatchList step (Arg.server :: Arg.socket sock :: l.extraArguments.map Arg.extra)
    store ln.fns

/-- A sequence of connection events on one bound listener: each event
carries the facade state at event time and its socket; the instance store
is threaded from event to event. Returns each event's trace and error. -/
def fireSeq (step : Nat → Nat) (ln : Listener) :
    List (Loader × Nat) → (Nat → Nat) → List (List Invocation × Option String)
  | [], _ => []
  | (l, sock) :: rest, store =>
    let r := fire step ln l sock store
    (r.2.1, r.2.2) :: fireSeq step ln rest r.1

/-- The spec's acceptance predicate for directory entries (extension in the
accepted set, name not starting with the hidden-file marker), stated
independently of the scan loop for comparison with `scanEntries`. -/
def specAccepted (o : Options) (filename : String) : Bool :=
  match extExec filename with
  | none => false
  | some extension => o.extensions.contains extension && !(filename.startsWith ".")

/-- Everything observable about a facade state except the `withNamespace`
flag: used to state that the flag is never consumed by any behavior. -/
def loaderObs (l : Loader) : String × Bool × List String × List Nat × List String :=
  (l.options.cwd, l.options.verbose, l.options.extensions, l.extraArguments, l.files)

/-- A concrete configuration for the concrete evaluations and witnesses. -/
def appOptions (verbose : Bool) : Options :=
  { cwd := "/app", verbose := verbose, extensions := ["js", "mjs"], withNamespace := true }

/-- A concrete facade state over `appOptions` with the given files. -/
def appLoader (verbose : Bool) (files : List String) : Loader :=
  { options := appOptions verbose, extraArguments := [], files := files }

/-- Module-loading collaborator with exactly one module on disk. -/
def singleModule (p : String) (mod : List Value) : String → Except String (List Value) :=
  fun q => if q = p then .ok mod else .error "Cannot find module"

/-- Module-loading collaborator with no modules on disk. -/
def noModules : String → Except String (List Value) :=
  fun _ => .error "Cannot find module"

/-- A filesystem with one directory holding the given entries. -/
def singleDir (d : String) (entries : List String) : FileSystem :=
  { existsSync := fun q => q = d
    isDirectory := fun q => q = d
    readdirSync := fun q => if q = d then entries else [] }

/-- A filesystem where the location exists but is a plain file, not a
directory. -/
def fileNotDir (d : String) : FileSystem :=
  { existsSync := fun q => q = d
    isDirectory := fun _ => false
    readdirSync := fun _ => [] }

/-! ## Helper lemmas -/

/-- Every completed invocation of one dispatch pass receives exactly the
argument list the listener was entered with. -/
theorem dispatchList_args_map (step : Nat → Nat) (args : List Arg) :
    ∀ (fns : List Value) (store : Nat → Nat),
      ((dispatchList step args store fns).2.1).map Invocation.args
        = List.replicate ((dispatchList step args store fns).2.1).length args
  | [], _ => rfl
  | v :: rest, store => by
    cases v with
    | fn i =>
      simp only [dispatchList, callValue]
      simpa [List.replicate_succ] using dispatchList_args_map step args rest store
    | bound j =>
      simp only [dispatchList, callValue]
      simpa [List.replicate_succ] using dispatchList_args_map step args rest
        (Function.update store j (step (store j)))
    | cls i h => simp [dispatchList, callValue]
    | other i => simp [dispatchList, callValue]

/-- Folding `withExtraArgument` over a sequence of calls appends the
flattened concatenation of the calls in order. -/
theorem foldl_withExtraArgument (calls : List (List Nat)) :
    ∀ l : Loader,
      (calls.foldl Loader.withExtraArgument l).extraArguments
        = l.extraArguments ++ calls.flatten := by
  induction calls with
  | nil => intro l; simp
  | cons c rest ih =>
    intro l
    simp [List.foldl_cons, ih, Loader.withExtraArgument, List.append_assoc]

/-! ## Claim theorems -/

/-- C1: the claim says one connection event invokes each of two plain
function exports `a`, `b` exactly once, in order, with `(server,
connection)` only. The code appends the whole export array to `fns` once
per export (`fns = fns.concat(mod)` inside the per-export loop), so
binding a one-file directory exporting `a` and `b` yields the handler
list `[a, b, a, b]` and one event invokes each of them twice. This
theorem evaluates the code at that input. -/
theorem C1_two_plain_exports_each_invoked_twice :
    (Loader.into
        (fun p => if p = "/app/routes/a.js" then .ok [Value.fn 0, Value.fn 1]
          else .error "Cannot find module")
        (appLoader false ["/app/routes/a.js"])).1
      = .ok ({ fns := [Value.fn 0, Value.fn 1, Value.fn 0, Value.fn 1] }, 0) ∧
    (fire (fun s => s) { fns := [Value.fn 0, Value.fn 1, Value.fn 0, Value.fn 1] }
        (appLoader false ["/app/routes/a.js"]) 5 (fun _ => 0)).2
      = ([⟨Value.fn 0, none, [Arg.server, Arg.socket 5]⟩,
          ⟨Value.fn 1, none, [Arg.server, Arg.socket 5]⟩,
          ⟨Value.fn 0, none, [Arg.server, Arg.socket 5]⟩,
          ⟨Value.fn 1, none, [Arg.server, Arg.socket 5]⟩], none) :=
  ⟨rfl, rfl⟩

/-- C6: the final Extra Argument List after any sequence of variadic
accumulation calls is the flattened concatenation of the calls in order,
and every handler invocation of a connection event receives exactly
`(server, socket, ...that list)`, verbatim and in order. -/
theorem C6_extra_arguments_concat_and_verbatim (l : Loader) (calls : List (List Nat)) :
    (calls.foldl Loader.withExtraArgument l).extraArguments
        = l.extraArguments ++ calls.flatten ∧
    ∀ (step : Nat → Nat) (ln : Listener) (sock : Nat) (store : Nat → Nat),
      ((fire step ln (calls.foldl Loader.withExtraArgument l) sock store).2.1).map
          Invocation.args
        = List.replicate
            ((fire step ln (calls.foldl Loader.withExtraArgument l) sock store).2.1).length
            (Arg.server :: Arg.socket sock ::
              (l.extraArguments ++ calls.flatten).map Arg.extra) := by
  refine ⟨foldl_withExtraArgument calls l, ?_⟩
  intro step ln sock store
  simp only [fire, foldl_withExtraArgument calls l]
  exact dispatchList_args_map step _ ln.fns store

/-- C2: for a file exporting a class-shaped constructor without a
`connection` method, binding completes without raising and logs an
error-level `cannot load route` message, and a connection event fired on
the resulting listener executes no handler at all — in particular it never
invokes the raw class export as a function (the dispatch call on it throws
before anything runs). -/
theorem C2_class_without_connection (l : Loader) (p : String) (c sock : Nat)
    (loadModule : String → Except String (List Value))
    (hv : l.options.verbose = true) (hf : l.files = [p])
    (hm : loadModule p = .ok [Value.cls c false]) :
    ∃ logs : List LogEntry,
      Loader.into loadModule l = (.ok ({ fns := [Value.cls c false] }, 1), logs) ∧
      (⟨LogLevel.error, "cannot load route"⟩ : LogEntry) ∈ logs ∧
      ∀ (step store : Nat → Nat) (l' : Loader),
        (fire step { fns := [Value.cls c false] } l' sock store).2
          = ([], some "TypeError: class constructor cannot be invoked without new") := by
  refine ⟨[⟨LogLevel.error, "cannot load route"⟩,
    ⟨LogLevel.info, "loaded: " ++
      (((Loader.getRelativeTo l p).splitOn pathSep).drop 1).getLastD "undefined"⟩],
    ?_, ?_, ?_⟩
  · simp [Loader.into, hf, intoFiles, hm, loopExports, emit, hv, isFunction]
  · simp
  · intro step store l'
    rfl

/-- C7: a scan call whose resolved location does not exist, or exists but
is not a directory, logs one error-level message naming the location (the
branch-appropriate one) and returns the facade state unchanged (soft
failure), so a subsequent bind behaves exactly as a bind on the state
before the failed scan. -/
theorem C7_missing_location_soft_fail (fsys : FileSystem) (l : Loader) (dirname : String)
    (hv : l.options.verbose = true)
    (hbad : fsys.existsSync (pathJoin l.options.cwd dirname) = false ∨
      fsys.isDirectory (pathJoin l.options.cwd dirname) = false) :
    Loader.when fsys l dirname
        = (.ok l,
           [⟨LogLevel.error,
             if fsys.existsSync (pathJoin l.options.cwd dirname) = false then
               "Entity not found " ++ pathJoin l.options.cwd dirname
             else pathJoin l.options.cwd dirname ++ " not is an folder"⟩]) ∧
    ∀ (loadModule : String → Except String (List Value)) (l' : Loader),
      (Loader.when fsys l dirname).1 = .ok l' →
        Loader.into loadModule l' = Loader.into loadModule l := by
  have h1 : Loader.when fsys l dirname
      = (.ok l,
         [⟨LogLevel.error,
           if fsys.existsSync (pathJoin l.options.cwd dirname) = false then
             "Entity not found " ++ pathJoin l.options.cwd dirname
           else pathJoin l.options.cwd dirname ++ " not is an folder"⟩]) := by
    unfold Loader.when
    dsimp only
    cases hex : fsys.existsSync (pathJoin l.options.cwd dirname) with
    | false =>
      simp [Loader.log, emit, hv]
    | true =>
      have hdir : fsys.isDirectory (pathJoin l.options.cwd dirname) = false := by
        cases hbad with
        | inl h => rw [hex] at h; exact absurd h (by decide)
        | inr h => exact h
      simp [hdir, Loader.log, emit, hv]
  refine ⟨h1, ?_⟩
  intro loadModule l' hl'
  rw [h1] at hl'
  simp only [Except.ok.injEq] at hl'
  rw [hl']

/-- Witness for C2 at a concrete file, class and socket. -/
theorem C2_class_without_connection_witness :
    ∃ logs : List LogEntry,
      Loader.into (singleModule "/app/routes/d.js" [Value.cls 9 false])
          (appLoader true ["/app/routes/d.js"])
        = (.ok ({ fns := [Value.cls 9 false] }, 1), logs) ∧
      (⟨LogLevel.error, "cannot load route"⟩ : LogEntry) ∈ logs ∧
      ∀ (step store : Nat → Nat) (l' : Loader),
        (fire step { fns := [Value.cls 9 false] } l' 5 store).2
          = ([], some "TypeError: class constructor cannot be invoked without new") :=
  C2_class_without_connection (appLoader true ["/app/routes/d.js"]) "/app/routes/d.js" 9 5
    (singleModule "/app/routes/d.js" [Value.cls 9 false]) rfl rfl (by simp [singleModule])

/-- Witness for C7 at a concrete location that exists but is a plain file,
exercising the not-a-directory soft-failure branch. -/
theorem C7_missing_location_soft_fail_witness :
    Loader.when (fileNotDir "/app/routes") (appLoader true []) "routes"
        = (.ok (appLoader true []),
           [⟨LogLevel.error,
             if (fileNotDir "/app/routes").existsSync
                 (pathJoin (appLoader true []).options.cwd "routes") = false then
               "Entity not found " ++ pathJoin (appLoader true []).options.cwd "routes"
             else pathJoin (appLoader true []).options.cwd "routes" ++
               " not is an folder"⟩]) ∧
    ∀ (loadModule : String → Except String (List Value)) (l' : Loader),
      (Loader.when (fileNotDir "/app/routes") (appLoader true []) "routes").1 = .ok l' →
        Loader.into loadModule l' = Loader.into loadModule (appLoader true []) :=
  C7_missing_location_soft_fail (fileNotDir "/app/routes") (appLoader true []) "routes"
    rfl (Or.inr rfl)

/-- C9: the Extra Argument List is read from the facade at event time, not
snapshotted at bind time: after a bind that registered listener `ln`,
firing a connection event on a facade state extended by further
accumulation calls passes the extended list (after server and socket) to
every handler invocation of that earlier-registered listener. -/
theorem C9_extra_arguments_read_at_event_time
    (loadModule : String → Except String (List Value)) (l : Loader) (ln : Listener)
    (cnt : Nat) (logs : List LogEntry)
    (_hbind : Loader.into loadModule l = (.ok (ln, cnt), logs)) :
    ∀ (extra : List Nat) (sock : Nat) (step store : Nat → Nat),
      ((fire step ln (l.withExtraArgument extra) sock store).2.1).map Invocation.args
        = List.replicate ((fire step ln (l.withExtraArgument extra) sock store).2.1).length
            (Arg.server :: Arg.socket sock ::
              (l.extraArguments ++ extra).map Arg.extra) := by
  intro extra sock step store
  simpa [fire, Loader.withExtraArgument]
    using dispatchList_args_map step
      (Arg.server :: Arg.socket sock :: (l.extraArguments ++ extra).map Arg.extra)
      ln.fns store

/-- Witness for C9 at the concrete bind of C1's fixture. -/
theorem C9_extra_arguments_read_at_event_time_witness :
    ((fire (fun s => s) { fns := [Value.fn 0, Value.fn 1, Value.fn 0, Value.fn 1] }
        ((appLoader false ["/app/routes/a.js"]).withExtraArgument [1, 2]) 5
        (fun _ => 0)).2.1).map Invocation.args
      = List.replicate
          ((fire (fun s => s) { fns := [Value.fn 0, Value.fn 1, Value.fn 0, Value.fn 1] }
              ((appLoader false ["/app/routes/a.js"]).withExtraArgument [1, 2]) 5
              (fun _ => 0)).2.1).length
          (Arg.server :: Arg.socket 5 ::
            ((appLoader false ["/app/routes/a.js"]).extraArguments ++ [1, 2]).map Arg.extra) :=
  C9_extra_arguments_read_at_event_time
    (singleModule "/app/routes/a.js" [Value.fn 0, Value.fn 1])
    (appLoader false ["/app/routes/a.js"])
    { fns := [Value.fn 0, Value.fn 1, Value.fn 0, Value.fn 1] } 0 [] (by rfl)
    [1, 2] 5 (fun s => s) (fun _ => 0)

/-- The one-file unfolding of the file loop, as a rewrite equation. -/
theorem intoFiles_cons (loadModule : String → Except String (List Value)) (l : Loader)
    (file : String) (rest : List String) (fns : List Value) (ni : Nat) :
    intoFiles loadModule l (file :: rest) fns ni
      = match loadModule file with
        | .error e => (.error ("Failed to require " ++ file ++ " because: " ++ e), [])
        | .ok mod =>
          match loopExports l.options
              ((((l.getRelativeTo file).splitOn pathSep).drop 1).getLastD "undefined")
              mod.length mod fns 0 ni with
          | (.error m, logs) => (.error m, logs)
          | (.ok (fns2, ni2), logs) =>
            ((intoFiles loadModule l rest fns2 ni2).1,
              logs ++ (intoFiles loadModule l rest fns2 ni2).2) := rfl

/-- Processing `xs ++ ys` in the file loop equals processing `xs`, then
continuing from its accumulated handlers and instance counter with `ys`
(when `xs` alone succeeds); the log streams concatenate. -/
theorem intoFiles_append_ok (loadModule : String → Except String (List Value)) (l : Loader)
    (ys : List String) :
    ∀ (xs : List String) (fns : List Value) (ni : Nat) (fns2 : List Value) (ni2 : Nat)
      (logs : List LogEntry),
      intoFiles loadModule l xs fns ni = (.ok (fns2, ni2), logs) →
      intoFiles loadModule l (xs ++ ys) fns ni
        = ((intoFiles loadModule l ys fns2 ni2).1,
            logs ++ (intoFiles loadModule l ys fns2 ni2).2)
  | [], fns, ni, fns2, ni2, logs => by
    intro h
    simp only [intoFiles, Prod.mk.injEq, Except.ok.injEq] at h
    obtain ⟨⟨h1, h2⟩, h3⟩ := h
    subst h1; subst h2; subst h3
    simp
  | file :: rest, fns, ni, fns2, ni2, logs => by
    intro h
    rw [intoFiles_cons] at h
    rw [List.cons_append, intoFiles_cons]
    cases hlm : loadModule file with
    | error e =>
      rw [hlm] at h
      simp at h
    | ok mod =>
      rw [hlm] at h
      dsimp only at h ⊢
      cases hle : loopExports l.options
          ((((l.getRelativeTo file).splitOn pathSep).drop 1).getLastD "undefined")
          mod.length mod fns 0 ni with
      | mk r logs0 =>
        rw [hle] at h
        cases r with
        | error m =>
          dsimp only at h
          simp at h
        | ok pr =>
          obtain ⟨fnsm, nim⟩ := pr
          dsimp only at h ⊢
          cases hrest : intoFiles loadModule l rest fnsm nim with
          | mk r2 logs2 =>
            rw [hrest] at h
            dsimp only at h
            cases r2 with
            | error m =>
              simp at h
            | ok pr2 =>
              obtain ⟨g2, n2⟩ := pr2
              simp only [Prod.mk.injEq, Except.ok.injEq] at h
              obtain ⟨⟨hg2, hn2⟩, hlogs⟩ := h
              subst hg2; subst hn2
              have ih2 := intoFiles_append_ok loadModule l ys rest fnsm nim g2 n2 logs2
                (by rw [hrest])
              rw [ih2]
              dsimp only
              rw [← hlogs, List.append_assoc]

/-- C3: when a discovered file fails to load, binding throws an error whose
message names the failing file path and the underlying cause, even when
earlier files in the same bind call were already normalized; the thrown
result means no listener is registered and no handler is retained. -/
theorem C3_require_failure_fatal (loadModule : String → Except String (List Value))
    (l : Loader) (pre post : List String) (file msg : String)
    (fns1 : List Value) (ni1 : Nat) (logs1 : List LogEntry)
    (hfiles : l.files = pre ++ file :: post)
    (hpre : intoFiles loadModule l pre [] 0 = (.ok (fns1, ni1), logs1))
    (hfail : loadModule file = .error msg) :
    (Loader.into loadModule l).1
        = .error ("Failed to require " ++ file ++ " because: " ++ msg) ∧
    ∀ (ln : Listener) (cnt : Nat) (logs : List LogEntry),
      Loader.into loadModule l ≠ (.ok (ln, cnt), logs) := by
  have hsplit := intoFiles_append_ok loadModule l (file :: post) pre [] 0 fns1 ni1 logs1 hpre
  have hcons : intoFiles loadModule l (file :: post) fns1 ni1
      = (.error ("Failed to require " ++ file ++ " because: " ++ msg), []) := by
    rw [intoFiles_cons, hfail]
  have hinto : Loader.into loadModule l
      = (.error ("Failed to require " ++ file ++ " because: " ++ msg),
          logs1 ++ (intoFiles loadModule l (file :: post) fns1 ni1).2) := by
    unfold Loader.into
    rw [hfiles, hsplit, hcons]
  refine ⟨by rw [hinto], ?_⟩
  intro ln cnt logs hEq
  rw [hinto] at hEq
  exact absurd (congrArg Prod.fst hEq) (by simp)

/-- Witness for C3: the second of two files is missing. -/
theorem C3_require_failure_fatal_witness :
    (Loader.into (singleModule "/app/routes/a.js" [Value.fn 0])
        (appLoader false ["/app/routes/a.js", "/app/routes/missing.js"])).1
      = .error ("Failed to require " ++ "/app/routes/missing.js" ++ " because: " ++
          "Cannot find module") :=
  (C3_require_failure_fatal (singleModule "/app/routes/a.js" [Value.fn 0])
    (appLoader false ["/app/routes/a.js", "/app/routes/missing.js"])
    ["/app/routes/a.js"] [] "/app/routes/missing.js" "Cannot find module"
    [Value.fn 0] 0 [] rfl rfl (by simp [singleModule])).1

/-- The scan loop appends exactly the accepted entries, in listing order
(when every entry\'s extension extraction succeeds). -/
theorem scanEntries_filter (location : String) :
    ∀ (entries : List String) (l : Loader),
      (∀ e ∈ entries, extExec e ≠ none) →
      ∃ logs, scanEntries l location entries
        = (.ok { l with files := l.files ++
            (entries.filter (specAccepted l.options)).map (fun e => pathJoin location e) },
           logs)
  | [], l => by
    intro _
    refine ⟨[], ?_⟩
    simp [scanEntries]
  | e :: rest, l => by
    intro h
    have hrest : ∀ x ∈ rest, extExec x ≠ none := fun x hx => h x (List.mem_cons_of_mem e hx)
    cases hx : extExec e with
    | none => exact absurd hx (h e (List.mem_cons_self e rest))
    | some ext =>
      rw [scanEntries, hx]
      dsimp only
      by_cases hc : l.options.extensions.contains ext
      · rw [if_neg (by simp only [hc]; decide)]
        by_cases hh : e.startsWith "."
        · rw [if_pos hh]
          obtain ⟨logs, hrec⟩ := scanEntries_filter location rest l hrest
          refine ⟨emit l.options ("Ignoring hidden entity: " ++ e) .info ++ logs, ?_⟩
          rw [hrec]
          have hsf : specAccepted l.options e = false := by simp [specAccepted, hx, hh]
          simp [List.filter_cons, hsf]
        · rw [if_neg hh]
          obtain ⟨logs, hrec⟩ :=
            scanEntries_filter location rest
              { l with files := l.files ++ [pathJoin location e] } hrest
          refine ⟨logs, ?_⟩
          rw [hrec]
          have hmem : ext ∈ l.options.extensions := by simpa using hc
          have hsf : specAccepted l.options e = true := by
            simp [specAccepted, hx, hmem, hh]
          simp [List.filter_cons, hsf, List.append_assoc]
      · rw [if_pos (Bool.eq_false_iff.mpr hc)]
        obtain ⟨logs, hrec⟩ := scanEntries_filter location rest l hrest
        refine ⟨emit l.options ("Ignoring extension: " ++ ext) .info ++ logs, ?_⟩
        rw [hrec]
        have hmem : ext ∉ l.options.extensions := by simpa using hc
        have hsf : specAccepted l.options e = false := by simp [specAccepted, hx, hmem]
        simp [List.filter_cons, hsf]

/-- C4: a scan call on an existing directory appends to the Discovered
File List exactly the entries with an accepted extension and a
non-hidden name, in directory-listing order, and every file present
afterwards was either present before or is such an accepted entry. -/
theorem C4_scan_appends_exactly_accepted (fsys : FileSystem) (l : Loader) (dirname : String)
    (entries : List String)
    (hex : fsys.existsSync (pathJoin l.options.cwd dirname) = true)
    (hdir : fsys.isDirectory (pathJoin l.options.cwd dirname) = true)
    (hrd : fsys.readdirSync (pathJoin l.options.cwd dirname) = entries)
    (hwf : ∀ e ∈ entries, extExec e ≠ none) :
    ∃ (logs : List LogEntry) (l2 : Loader),
      Loader.when fsys l dirname = (.ok l2, logs) ∧
      l2 = { l with files := l.files ++ (entries.filter (specAccepted l.options)).map (fun e => pathJoin (pathJoin l.options.cwd dirname) e) } ∧
      ∀ f ∈ l2.files, f ∈ l.files ∨ ∃ e ∈ entries, specAccepted l.options e = true ∧
        f = pathJoin (pathJoin l.options.cwd dirname) e := by
  obtain ⟨logs, hscan⟩ := scanEntries_filter (pathJoin l.options.cwd dirname) entries l hwf
  refine ⟨logs, _, ?_, rfl, ?_⟩
  · unfold Loader.when
    dsimp only
    rw [hex, hdir, hrd]
    simp only [Bool.true_eq_false, if_false]
    exact hscan
  · intro f hf
    simp only [List.mem_append, List.mem_map, List.mem_filter] at hf
    cases hf with
    | inl hl => exact Or.inl hl
    | inr hr =>
      obtain ⟨e, ⟨he, hacc⟩, hfe⟩ := hr
      exact Or.inr ⟨e, he, hacc, hfe.symm⟩

/-- Witness for C4 on a concrete listing mixing accepted, non-accepted
and hidden entries. -/
theorem C4_scan_appends_exactly_accepted_witness :
    ∃ (logs : List LogEntry) (l2 : Loader),
      Loader.when (singleDir "/app/routes" ["a.js", "b.txt", ".hidden.js", "c.mjs"])
          (appLoader true []) "routes" = (.ok l2, logs) ∧
      l2 = { appLoader true [] with files := (appLoader true []).files ++ ((["a.js", "b.txt", ".hidden.js", "c.mjs"].filter (specAccepted (appLoader true []).options)).map (fun e => pathJoin (pathJoin (appLoader true []).options.cwd "routes") e)) } ∧
      ∀ f ∈ l2.files, f ∈ (appLoader true []).files ∨
        ∃ e ∈ ["a.js", "b.txt", ".hidden.js", "c.mjs"],
          specAccepted (appLoader true []).options e = true ∧
          f = pathJoin (pathJoin (appLoader true []).options.cwd "routes") e :=
  C4_scan_appends_exactly_accepted
    (singleDir "/app/routes" ["a.js", "b.txt", ".hidden.js", "c.mjs"]) (appLoader true [])
    "routes" ["a.js", "b.txt", ".hidden.js", "c.mjs"]
    (by simp [singleDir, pathJoin, pathSep, appLoader, appOptions])
    (by simp [singleDir, pathJoin, pathSep, appLoader, appOptions])
    (by simp [singleDir, pathJoin, pathSep, appLoader, appOptions])
    (by decide)

/-- A name ending in the dot character makes the extension regex match
nothing. -/
theorem extExec_eq_none_of_getLast_dot (e : String)
    (h : e.toList.getLast? = some '.') : extExec e = none := by
  have h2 : e.toList.reverse.head? = some '.' := by
    rw [List.head?_reverse]
    exact h
  cases hrev : e.toList.reverse with
  | nil => rw [hrev] at h2; simp at h2
  | cons a t =>
    rw [hrev] at h2
    simp only [List.head?_cons, Option.some.injEq] at h2
    subst h2
    have hrev2 : e.data.reverse = '.' :: t := hrev
    simp [extExec, hrev2]

/-- If any entry of the listing fails extension extraction, the scan loop
throws the destructuring TypeError. -/
theorem scanEntries_error_of_mem (location : String) :
    ∀ (entries : List String) (l : Loader) (e : String), e ∈ entries → extExec e = none →
      (scanEntries l location entries).1 = .error "TypeError: object null is not iterable"
  | [], _, e => by
    intro hmem _
    exact absurd hmem (List.not_mem_nil e)
  | f :: rest, l, e => by
    intro hmem hnone
    cases hx : extExec f with
    | none => rw [scanEntries, hx]
    | some ext =>
      have hr : e ∈ rest := by
        cases List.mem_cons.mp hmem with
        | inl hef => rw [hef, hx] at hnone; exact absurd hnone (by simp)
        | inr h2 => exact h2
      rw [scanEntries, hx]
      dsimp only
      by_cases hc : l.options.extensions.contains ext
      · rw [if_neg (by simp only [hc]; decide)]
        by_cases hh : f.startsWith "."
        · rw [if_pos hh]
          exact scanEntries_error_of_mem location rest l e hr hnone
        · rw [if_neg hh]
          exact scanEntries_error_of_mem location rest
            { l with files := l.files ++ [pathJoin location f] } e hr hnone
      · rw [if_pos (Bool.eq_false_iff.mpr hc)]
        exact scanEntries_error_of_mem location rest l e hr hnone

/-- C10: a scan of an existing directory whose listing contains an entry
whose name ends with the dot character raises the destructuring TypeError
(the extension-extraction regex matches nothing), instead of skipping the
entry or soft-failing. -/
theorem C10_scan_raises_on_dot_terminal_name (fsys : FileSystem) (l : Loader)
    (dirname e : String) (entries : List String)
    (hex : fsys.existsSync (pathJoin l.options.cwd dirname) = true)
    (hdir : fsys.isDirectory (pathJoin l.options.cwd dirname) = true)
    (hrd : fsys.readdirSync (pathJoin l.options.cwd dirname) = entries)
    (hmem : e ∈ entries) (hdot : e.toList.getLast? = some '.') :
    (Loader.when fsys l dirname).1 = .error "TypeError: object null is not iterable" := by
  unfold Loader.when
  dsimp only
  rw [hex, hdir, hrd]
  simp only [Bool.true_eq_false, if_false]
  exact scanEntries_error_of_mem (pathJoin l.options.cwd dirname) entries l e hmem
    (extExec_eq_none_of_getLast_dot e hdot)

/-- Witness for C10 on a concrete listing holding the entry `bad.`. -/
theorem C10_scan_raises_on_dot_terminal_name_witness :
    (Loader.when (singleDir "/app/routes" ["a.js", "bad.", "c.js"]) (appLoader true [])
        "routes").1 = .error "TypeError: object null is not iterable" :=
  C10_scan_raises_on_dot_terminal_name (singleDir "/app/routes" ["a.js", "bad.", "c.js"])
    (appLoader true []) "routes" "bad." ["a.js", "bad.", "c.js"]
    (by simp [singleDir, pathJoin, pathSep, appLoader, appOptions])
    (by simp [singleDir, pathJoin, pathSep, appLoader, appOptions])
    (by simp [singleDir, pathJoin, pathSep, appLoader, appOptions])
    (by decide) (by decide)

/-- One connection event on a listener holding a single bound `connection`
method: the instance's current state is observed and advanced by `step`. -/
theorem fire_single_bound (step : Nat → Nat) (j : Nat) (l : Loader) (sock : Nat)
    (store : Nat → Nat) :
    fire step { fns := [Value.bound j] } l sock store
      = (Function.update store j (step (store j)),
         [⟨Value.bound j, some (store j),
           Arg.server :: Arg.socket sock :: l.extraArguments.map Arg.extra⟩], none) := rfl

/-- The normalized export of a single class module evaluates to the bound
method of one fresh instance; one `new` runs and one handler is produced. -/
theorem loopExports_single_cls (o : Options) (lp : String) (c ni : Nat) (fns : List Value) :
    loopExports o lp 1 [Value.cls c true] fns 0 ni
      = (.ok (fns ++ [Value.bound ni], ni + 1), emit o ("loaded: " ++ lp) .info ++ []) := by
  have hidx : [Value.cls c true].indexOf (Value.cls c true) = 0 := by
    simp [List.indexOf_cons_self]
  simp [loopExports, isFunction, hidx]

/-- Across a sequence of connection events, the single bound handler of
instance `j` observes at event `k` the state reached by `k` applications
of its own transition to the initial state: state persists between events
through the one shared instance. -/
theorem fireSeq_single_bound (step : Nat → Nat) (j : Nat) :
    ∀ (events : List (Loader × Nat)) (store : Nat → Nat) (k : Nat) (l : Loader) (sock : Nat),
      events.get? k = some (l, sock) →
      (fireSeq step { fns := [Value.bound j] } events store).get? k
        = some ([⟨Value.bound j, some (step^[k] (store j)),
            Arg.server :: Arg.socket sock :: l.extraArguments.map Arg.extra⟩], none)
  | [], _, k, l, sock => by
    intro h
    simp at h
  | (l0, s0) :: rest, store, 0, l, sock => by
    intro h
    simp only [List.get?_cons_zero, Option.some.injEq, Prod.mk.injEq] at h
    obtain ⟨h1, h2⟩ := h
    subst h1; subst h2
    rw [fireSeq, fire_single_bound]
    simp
  | (l0, s0) :: rest, store, k + 1, l, sock => by
    intro h
    simp only [List.get?_cons_succ] at h
    have ih := fireSeq_single_bound step j rest
      (Function.update store j (step (store j))) k l sock h
    rw [fireSeq, fire_single_bound]
    simp only [List.get?_cons_succ]
    rw [ih, Function.update_same]
    rw [← Function.iterate_succ_apply]

/-- C5: binding a file exporting one class-shaped constructor with a
`connection` method creates exactly one instance (the instance counter
ends at 1) and the handler list is exactly that instance's bound method;
every later connection event invokes that same instance's bound method,
observing at event `k` the state produced by the previous invocations
(`step` applied `k` times), so state set by one invocation is visible in
the next. -/
theorem C5_class_with_connection_single_instance (l : Loader) (p : String) (c : Nat)
    (loadModule : String → Except String (List Value))
    (hf : l.files = [p]) (hm : loadModule p = .ok [Value.cls c true]) :
    (∃ logs, Loader.into loadModule l = (.ok ({ fns := [Value.bound 0] }, 1), logs)) ∧
    ∀ (step : Nat → Nat) (events : List (Loader × Nat)) (k : Nat) (l2 : Loader) (sock : Nat),
      events.get? k = some (l2, sock) →
      (fireSeq step { fns := [Value.bound 0] } events (fun _ => 0)).get? k
        = some ([⟨Value.bound 0, some (step^[k] 0),
            Arg.server :: Arg.socket sock :: l2.extraArguments.map Arg.extra⟩], none) := by
  constructor
  · refine ⟨emit l.options
      ("loaded: " ++ (((l.getRelativeTo p).splitOn pathSep).drop 1).getLastD "undefined")
      LogLevel.info, ?_⟩
    unfold Loader.into
    rw [hf, intoFiles_cons, hm]
    dsimp only
    rw [show [Value.cls c true].length = 1 from rfl, loopExports_single_cls]
    simp [intoFiles]
  · intro step events k l2 sock h
    have hseq := fireSeq_single_bound step 0 events (fun _ => 0) k l2 sock h
    exact hseq

/-- Witness for C5: concrete class file, two concrete events. -/
theorem C5_class_with_connection_single_instance_witness :
    (∃ logs, Loader.into (singleModule "/app/routes/c.js" [Value.cls 7 true])
        (appLoader true ["/app/routes/c.js"]) = (.ok ({ fns := [Value.bound 0] }, 1), logs)) ∧
    ∀ (step : Nat → Nat) (events : List (Loader × Nat)) (k : Nat) (l2 : Loader) (sock : Nat),
      events.get? k = some (l2, sock) →
      (fireSeq step { fns := [Value.bound 0] } events (fun _ => 0)).get? k
        = some ([⟨Value.bound 0, some (step^[k] 0),
            Arg.server :: Arg.socket sock :: l2.extraArguments.map Arg.extra⟩], none) :=
  C5_class_with_connection_single_instance (appLoader true ["/app/routes/c.js"])
    "/app/routes/c.js" 7 (singleModule "/app/routes/c.js" [Value.cls 7 true])
    rfl (by simp [singleModule])

/-- The `emit` helper consumes only the verbosity flag of the options. -/
theorem emit_obs (o1 o2 : Options) (hv : o1.verbose = o2.verbose) (m : String)
    (t : LogLevel) : emit o1 m t = emit o2 m t := by
  simp [emit, hv]

/-- The export loop consumes only the verbosity flag of the options. -/
theorem loopExports_obs (o1 o2 : Options) (hv : o1.verbose = o2.verbose) (lp : String) :
    ∀ (n : Nat) (mod fns : List Value) (k ni : Nat),
      loopExports o1 lp n mod fns k ni = loopExports o2 lp n mod fns k ni
  | 0, _, _, _, _ => rfl
  | n + 1, mod, fns, k, ni => by
    rw [loopExports, loopExports]
    cases mod.get? k with
    | none => rfl
    | some i =>
      cases i with
      | fn id =>
        dsimp only [isFunction]
        rw [loopExports_obs o1 o2 hv lp n mod (fns ++ mod) (k + 1) ni,
          emit_obs o1 o2 hv ("loaded: " ++ lp) .info]
      | bound j =>
        dsimp only [isFunction]
        rw [loopExports_obs o1 o2 hv lp n mod (fns ++ mod) (k + 1) ni,
          emit_obs o1 o2 hv ("loaded: " ++ lp) .info]
      | other id =>
        rfl
      | cls cid hasConn =>
        dsimp only [isFunction]
        cases hasConn with
        | true =>
          rw [loopExports_obs o1 o2 hv lp n
              (mod.set (mod.indexOf (Value.cls cid true)) (Value.bound ni))
              (fns ++ mod.set (mod.indexOf (Value.cls cid true)) (Value.bound ni))
              (k + 1) (ni + 1),
            loopExports_obs o1 o2 hv lp n mod (fns ++ mod) (k + 1) (ni + 1),
            emit_obs o1 o2 hv ("loaded: " ++ lp) .info,
            emit_obs o1 o2 hv "cannot load route" .error]
        | false =>
          rw [loopExports_obs o1 o2 hv lp n
              (mod.set (mod.indexOf (Value.cls cid false)) (Value.bound ni))
              (fns ++ mod.set (mod.indexOf (Value.cls cid false)) (Value.bound ni))
              (k + 1) (ni + 1),
            loopExports_obs o1 o2 hv lp n mod (fns ++ mod) (k + 1) (ni + 1),
            emit_obs o1 o2 hv ("loaded: " ++ lp) .info,
            emit_obs o1 o2 hv "cannot load route" .error]

/-- The file loop consumes only the working root and the verbosity flag. -/
theorem intoFiles_obs (loadModule : String → Except String (List Value)) (l1 l2 : Loader)
    (hc : l1.options.cwd = l2.options.cwd) (hv : l1.options.verbose = l2.options.verbose) :
    ∀ (files : List String) (fns : List Value) (ni : Nat),
      intoFiles loadModule l1 files fns ni = intoFiles loadModule l2 files fns ni
  | [], _, _ => rfl
  | file :: rest, fns, ni => by
    rw [intoFiles_cons, intoFiles_cons]
    have hrel : l1.getRelativeTo file = l2.getRelativeTo file := by
      simp [Loader.getRelativeTo, hc]
    rw [hrel]
    cases loadModule file with
    | error e => rfl
    | ok mod =>
      dsimp only
      rw [loopExports_obs l1.options l2.options hv
          ((((l2.getRelativeTo file).splitOn pathSep).drop 1).getLastD "undefined")
          mod.length mod fns 0 ni]
      cases loopExports l2.options
          ((((l2.getRelativeTo file).splitOn pathSep).drop 1).getLastD "undefined")
          mod.length mod fns 0 ni with
      | mk r logs =>
        cases r with
        | error m => rfl
        | ok pr =>
          obtain ⟨f2, n2⟩ := pr
          dsimp only
          rw [intoFiles_obs loadModule l1 l2 hc hv rest f2 n2]

/-- Binding ignores the `withNamespace` flag entirely. -/
theorem into_obs (loadModule : String → Except String (List Value)) (l1 l2 : Loader)
    (h : loaderObs l1 = loaderObs l2) :
    Loader.into loadModule l1 = Loader.into loadModule l2 := by
  simp only [loaderObs, Prod.mk.injEq] at h
  obtain ⟨h1, h2, h3, h4, h5⟩ := h
  unfold Loader.into
  rw [h5, intoFiles_obs loadModule l1 l2 h1 h2]

/-- The scan loop ignores the `withNamespace` flag: equal observations in,
equal logs and equal observations out. -/
theorem scanEntries_obs (location : String) :
    ∀ (entries : List String) (l1 l2 : Loader), loaderObs l1 = loaderObs l2 →
      (scanEntries l1 location entries).1.map loaderObs
          = (scanEntries l2 location entries).1.map loaderObs ∧
      (scanEntries l1 location entries).2 = (scanEntries l2 location entries).2
  | [], l1, l2 => by
    intro h
    refine ⟨?_, rfl⟩
    simp only [scanEntries, Except.map]
    rw [h]
  | e :: rest, l1, l2 => by
    intro h
    have hobs := h
    simp only [loaderObs, Prod.mk.injEq] at h
    obtain ⟨h1, h2, h3, h4, h5⟩ := h
    rw [scanEntries, scanEntries]
    cases extExec e with
    | none => exact ⟨rfl, rfl⟩
    | some ext =>
      dsimp only
      rw [← h3]
      have hemit : ∀ m t, emit l1.options m t = emit l2.options m t :=
        fun m t => emit_obs l1.options l2.options h2 m t
      by_cases hc : l1.options.extensions.contains ext = false
      · rw [if_pos hc, if_pos hc]
        obtain ⟨ih1, ih2⟩ := scanEntries_obs location rest l1 l2 hobs
        exact ⟨ih1, by rw [ih2, hemit]⟩
      · rw [if_neg hc, if_neg hc]
        by_cases hh : e.startsWith "."
        · rw [if_pos hh, if_pos hh]
          obtain ⟨ih1, ih2⟩ := scanEntries_obs location rest l1 l2 hobs
          exact ⟨ih1, by rw [ih2, hemit]⟩
        · rw [if_neg hh, if_neg hh]
          exact scanEntries_obs location rest
            { l1 with files := l1.files ++ [pathJoin location e] }
            { l2 with files := l2.files ++ [pathJoin location e] }
            (by simp only [loaderObs, Prod.mk.injEq]; exact ⟨h1, h2, h3, h4, by rw [h5]⟩)

/-- C8: two facade states whose configurations differ only in the
`withNamespace` flag are indistinguishable: scans produce the same logs
and the same observable states, extra-argument accumulation preserves the
relation, binding returns identical results (listener, instance count and
logs), and dispatch produces identical stores, traces and errors — the
flag is never consumed. -/
theorem C8_namespace_flag_never_consumed (l1 l2 : Loader) (h : loaderObs l1 = loaderObs l2) :
    (∀ (fsys : FileSystem) (dirname : String),
      (Loader.when fsys l1 dirname).1.map loaderObs
          = (Loader.when fsys l2 dirname).1.map loaderObs ∧
      (Loader.when fsys l1 dirname).2 = (Loader.when fsys l2 dirname).2) ∧
    (∀ args : List Nat,
      loaderObs (l1.withExtraArgument args) = loaderObs (l2.withExtraArgument args)) ∧
    (∀ loadModule : String → Except String (List Value),
      Loader.into loadModule l1 = Loader.into loadModule l2) ∧
    (∀ (step : Nat → Nat) (ln : Listener) (sock : Nat) (store : Nat → Nat),
      fire step ln l1 sock store = fire step ln l2 sock store) := by
  have hcomp := h
  simp only [loaderObs, Prod.mk.injEq] at hcomp
  obtain ⟨h1, h2, h3, h4, h5⟩ := hcomp
  refine ⟨?_, ?_, ?_, ?_⟩
  · intro fsys dirname
    unfold Loader.when
    dsimp only
    rw [h1]
    by_cases hex : fsys.existsSync (pathJoin l2.options.cwd dirname) = false
    · rw [if_pos hex, if_pos hex]
      exact ⟨by dsimp only [Except.map]; rw [h], by
        dsimp only [Loader.log]
        rw [emit_obs l1.options l2.options h2]⟩
    · rw [if_neg hex, if_neg hex]
      by_cases hdir : fsys.isDirectory (pathJoin l2.options.cwd dirname) = false
      · rw [if_pos hdir, if_pos hdir]
        exact ⟨by dsimp only [Except.map]; rw [h], by
          dsimp only [Loader.log]
          rw [emit_obs l1.options l2.options h2]⟩
      · rw [if_neg hdir, if_neg hdir]
        exact scanEntries_obs (pathJoin l2.options.cwd dirname)
          (fsys.readdirSync (pathJoin l2.options.cwd dirname)) l1 l2 h
  · intro args
    simp only [loaderObs, Loader.withExtraArgument, Prod.mk.injEq]
    exact ⟨h1, h2, h3, by rw [h4], h5⟩
  · intro loadModule
    exact into_obs loadModule l1 l2 h
  · intro step ln sock store
    unfold fire
    rw [h4]

/-- Witness for C8: two concrete facades differing only in the flag give
the same bind result and the same dispatch result. -/
theorem C8_namespace_flag_never_consumed_witness :
    Loader.into noModules (appLoader true [])
        = Loader.into noModules { appLoader true [] with options := { appOptions true with withNamespace := false } } ∧
    fire (fun s => s) { fns := [Value.fn 0] } (appLoader true []) 3 (fun _ => 0)
        = fire (fun s => s) { fns := [Value.fn 0] } { appLoader true [] with options := { appOptions true with withNamespace := false } } 3 (fun _ => 0) :=
  ⟨(C8_namespace_flag_never_consumed (appLoader true [])
      { appLoader true [] with options := { appOptions true with withNamespace := false } }
      rfl).2.2.1 noModules,
   (C8_namespace_flag_never_consumed (appLoader true [])
      { appLoader true [] with options := { appOptions true with withNamespace := false } }
      rfl).2.2.2 (fun s => s) { fns := [Value.fn 0] } 3 (fun _ => 0)⟩

end SocketLoader
